import Mathlib

/-!
Verification development for the zh_network mesh-overlay engine
(`src/zh_network.c`, with its public interface in `src/include/zh_network.h`).

The embedding is shallow and executable.  Conventions:

* 6-byte MAC addresses are compared with `memcmp` in the C code, so they are
  embedded as natural numbers below `2 ^ 48`; equality of numbers coincides
  with `memcmp` equality of the byte arrays.
* The three recency tables live in `zh_vector_t` values (the bounded-vector
  utility is an external collaborator of this module, used only through
  `zh_vector_push_back`, `zh_vector_get_item`, `zh_vector_get_size` and
  `zh_vector_delete_item`); they are embedded as Lean lists, with
  `zh_vector_delete_item v 0` being `List.tail` and `zh_vector_push_back`
  being append at the back.
* The FreeRTOS work queue is a list whose head is the front of the queue;
  `xQueueSendToFront` conses, `xQueueSend` appends.
* Randomness (`esp_random()`), the current time (`esp_timer_get_time()/1000`)
  and the link-layer send outcome (the event-group wait around
  `esp_now_send`, including the bounded `_attempts` retry loop, which leaves
  no state behind because `_attempts` is reset to 0 on every exit path) are
  inputs to the step functions.
* Heap allocations for transient peer descriptors and event payloads are
  assumed to succeed (allocation failure merely aborts the current item).
* `Nat` subtraction models the unsigned queue-space arithmetic; this agrees
  with the C integer semantics for `queue_size ≥ 2` (the configured minimum
  is 32).
-/

namespace ZhNetwork

/-- MAC addresses: 6 bytes compared bytewise with `memcmp`, embedded as
naturals below `2 ^ 48`. -/
abbrev Mac := Nat

/-- The reserved broadcast address `FF:FF:FF:FF:FF:FF` (`_broadcast_mac`). -/
def broadcastMac : Mac := 0xFFFFFFFFFFFF

/-- Constant `ZH_NETWORK_MAX_MESSAGE_SIZE` from `zh_network.h`. -/
def maxMessageSize : Nat := 218

/-- The five message kinds of `_queue_t.data.message_type`. -/
inductive MessageType where
  | broadcast
  | unicast
  | deliveryConfirm
  | searchRequest
  | searchResponse
deriving DecidableEq

/-- The frame record `_queue_t.data`.  The C struct stores a fixed 218-byte
zero-padded `payload` array next to `payload_len`; here `payload` is the list
of meaningful bytes (handlers copy exactly `payload_len` bytes out). -/
structure FrameData where
  message_type : MessageType
  network_id : Nat
  message_id : Nat
  confirm_id : Nat
  original_target_mac : Mac
  original_sender_mac : Mac
  sender_mac : Mac
  payload : List Nat
  payload_len : Nat
deriving DecidableEq

/-- The four work-item states of `_queue_t.id`. -/
inductive WorkState where
  | toSend
  | onRecv
  | waitRoute
  | waitResponse
deriving DecidableEq

/-- A work item `_queue_t`: state tag, deadline timestamp and frame. -/
structure WorkItem where
  time : Nat
  id : WorkState
  data : FrameData
deriving DecidableEq

/-- A routing-table entry `_routing_table_t`: destination and next hop. -/
structure RoutingEntry where
  original_target_mac : Mac
  intermediate_target_mac : Mac
deriving DecidableEq

/-- The configuration fields of `zh_network_init_config_t` that the
processing engine reads (`task_priority`, `stack_size` and `wifi_interface`
only affect scheduling and the link binding, which are outside the
embedding). -/
structure InitConfig where
  network_id : Nat
  queue_size : Nat
  max_waiting_time : Nat
  id_vector_size : Nat
  route_vector_size : Nat
deriving DecidableEq

/-- Status carried by an `ON_SEND` host event
(`zh_network_on_send_event_type_t`). -/
inductive SendStatus where
  | success
  | fail
deriving DecidableEq

/-- Observable actions of one handler invocation, in program order:
host events posted via `esp_event_post`, link transmissions via
`esp_now_send`, and work-queue insertions. -/
inductive Act where
  | emitOnRecv (mac : Mac) (payload : List Nat) (len : Nat)
  | emitOnSend (mac : Mac) (status : SendStatus)
  | linkSend (peer : Mac) (frame : FrameData)
  | enqBack (item : WorkItem)
  | enqFront (item : WorkItem)
deriving DecidableEq

/-- The mutable engine state: the three recency tables (`_id_vector`,
`_route_vector`, `_response_vector`) and the work queue (head = front). -/
structure Node where
  seen : List Nat
  routes : List RoutingEntry
  confirmed : List Nat
  queue : List WorkItem
deriving DecidableEq

/-- The state right after `zh_network_init`: all tables and the queue empty. -/
def initialNode : Node := ⟨[], [], [], []⟩

/-- Embedding of `abs(esp_random())` stored into the `uint32_t message_id`:
the 32-bit draw is reinterpreted as a signed int, `abs` is applied (gcc maps
`INT_MIN` to itself), and the result is stored back as `uint32_t`. -/
def absU32 (r : Nat) : Nat :=
  let r2 := r % 2 ^ 32
  if r2 < 2 ^ 31 then r2 else 2 ^ 32 - r2

/-- `zh_vector_push_back` followed by the overflow eviction
`if (zh_vector_get_size(v) > bound) zh_vector_delete_item(v, 0)`. -/
def pushEvict {α : Type} (bound : Nat) (x : α) (v : List α) : List α :=
  if bound < (v ++ [x]).length then (v ++ [x]).tail else v ++ [x]

/-- The route-lookup loop (first match wins, then `break`):
`for i in 0..size, if memcmp(target, v[i].original_target_mac) == 0 take hop`. -/
def lookupRoute (target : Mac) : List RoutingEntry → Option Mac
  | [] => none
  | e :: rest =>
    if e.original_target_mac = target then some e.intermediate_target_mac
    else lookupRoute target rest

/-- The route-invalidation loop
`for (i = 0; i < size; ++i) if (match at i) zh_vector_delete_item(v, i)`
(lines 497-504, 650-657 and 695-702 of `zh_network.c`).  Because the index
still advances after a deletion shifts the remaining elements down, the
element immediately following a deleted entry is never examined; the
structural recursion below reproduces exactly that skip. -/
def routeScanDelete (key : Mac) : List RoutingEntry → List RoutingEntry
  | [] => []
  | [e] => if e.original_target_mac = key then [] else [e]
  | e :: f :: rest2 =>
    if e.original_target_mac = key then f :: routeScanDelete key rest2
    else e :: routeScanDelete key (f :: rest2)

/-- The `WAIT_RESPONSE` confirmation scan: find the first entry equal to the
frame's `message_id`, delete it and stop; `none` when no entry matches. -/
def removeFirstConfirm (x : Nat) : List Nat → Option (List Nat)
  | [] => none
  | y :: ys =>
    if y = x then some ys
    else (removeFirstConfirm x ys).map (fun zs => y :: zs)

/-- Result of one handler invocation: the updated tables plus the ordered
transcript of observable actions. -/
structure StepOut where
  seen : List Nat
  routes : List RoutingEntry
  confirmed : List Nat
  acts : List Act
deriving DecidableEq

/-- The `SEARCH_REQUEST` synthesis shared by the no-route and failed-send
paths of the `TO_SEND` case (lines 374-379 and 520-525): keep the target,
set the sender to this node, clear the payload, draw a fresh id. -/
def mkSearchRequest (self : Mac) (d : FrameData) (rnd : Nat) : FrameData :=
  { d with
    message_type := .searchRequest
    original_sender_mac := self
    payload := []
    payload_len := 0
    message_id := absU32 rnd }

/-- The `DELIVERY_CONFIRM` synthesis of the `ON_RECV UNICAST` self-target
branch (lines 606-613): swap sender and target, clear the payload, remember
the confirmed id, draw a fresh id. -/
def mkDeliveryConfirm (self : Mac) (d : FrameData) (rnd : Nat) : FrameData :=
  { d with
    message_type := .deliveryConfirm
    original_target_mac := d.original_sender_mac
    original_sender_mac := self
    payload := []
    payload_len := 0
    confirm_id := d.message_id
    message_id := absU32 rnd }

/-- The `SEARCH_RESPONSE` synthesis of the `ON_RECV SEARCH_REQUEST`
self-target branch (lines 671-677). -/
def mkSearchResponse (self : Mac) (d : FrameData) (rnd : Nat) : FrameData :=
  { d with
    message_type := .searchResponse
    original_target_mac := d.original_sender_mac
    original_sender_mac := self
    payload := []
    payload_len := 0
    message_id := absU32 rnd }

/-- The tail of the `TO_SEND` case after the next-hop peer is known:
`esp_now_send` plus the wait on the completion event group (lines 405-535).
`linkOk` is the outcome of the send including the bounded `_attempts` retry
loop (`true` for `DATA_SEND_SUCCESS`, `false` for a final fail or timeout). -/
def sendPhase (_cfg : InitConfig) (self : Mac) (seen : List Nat)
    (routes : List RoutingEntry) (confirmed : List Nat) (d : FrameData)
    (peer : Mac) (now : Nat) (linkOk : Bool) (rnd : Nat) : StepOut :=
  if linkOk then
    if d.original_sender_mac = self then
      if d.message_type = .broadcast then
        { seen := seen, routes := routes, confirmed := confirmed
          acts := [.linkSend peer d, .emitOnSend d.original_target_mac .success] }
      else if d.message_type = .unicast then
        { seen := seen, routes := routes, confirmed := confirmed
          acts := [.linkSend peer d, .enqBack ⟨now, .waitResponse, d⟩] }
      else
        { seen := seen, routes := routes, confirmed := confirmed
          acts := [.linkSend peer d] }
    else
      { seen := seen, routes := routes, confirmed := confirmed
        acts := [.linkSend peer d] }
  else
    if d.original_target_mac ≠ broadcastMac then
      { seen := seen
        routes := routeScanDelete d.original_target_mac routes
        confirmed := confirmed
        acts := [.linkSend peer d, .enqBack ⟨now, .waitRoute, d⟩,
                 .enqFront ⟨now, .toSend, mkSearchRequest self d rnd⟩] }
    else
      { seen := seen, routes := routes, confirmed := confirmed
        acts := [.linkSend peer d] }

/-- The `TO_SEND` case of `_processing` (lines 315-536).  Broadcast-kind
frames go to the broadcast peer (an originator first records its own
`message_id` in `_id_vector`); unicast-kind frames look up the routing
table and, with no route, move to `WAIT_ROUTE` and front-insert a fresh
`SEARCH_REQUEST` without transmitting. -/
def handleToSend (cfg : InitConfig) (self : Mac) (seen : List Nat)
    (routes : List RoutingEntry) (confirmed : List Nat) (it : WorkItem)
    (now : Nat) (linkOk : Bool) (rnd : Nat) : StepOut :=
  let d := it.data
  if d.message_type = .broadcast ∨ d.message_type = .searchRequest ∨
      d.message_type = .searchResponse then
    let seen2 :=
      if d.original_sender_mac = self then
        pushEvict cfg.id_vector_size d.message_id seen
      else seen
    sendPhase cfg self seen2 routes confirmed d broadcastMac now linkOk rnd
  else
    match lookupRoute d.original_target_mac routes with
    | some hop => sendPhase cfg self seen routes confirmed d hop now linkOk rnd
    | none =>
      { seen := seen, routes := routes, confirmed := confirmed
        acts := [.enqBack ⟨now, .waitRoute, d⟩,
                 .enqFront ⟨now, .toSend, mkSearchRequest self d rnd⟩] }

/-- The `ON_RECV` case of `_processing` (lines 537-729), dispatching on the
message kind. -/
def handleOnRecv (cfg : InitConfig) (self : Mac) (seen : List Nat)
    (routes : List RoutingEntry) (confirmed : List Nat) (it : WorkItem)
    (rnd : Nat) : StepOut :=
  let d := it.data
  match d.message_type with
  | .broadcast =>
    { seen := seen, routes := routes, confirmed := confirmed
      acts := [.emitOnRecv d.original_sender_mac (d.payload.take d.payload_len)
                 d.payload_len,
               .enqBack ⟨it.time, .toSend, d⟩] }
  | .unicast =>
    if d.original_target_mac = self then
      { seen := seen, routes := routes, confirmed := confirmed
        acts := [.emitOnRecv d.original_sender_mac (d.payload.take d.payload_len)
                   d.payload_len,
                 .enqFront ⟨it.time, .toSend, mkDeliveryConfirm self d rnd⟩] }
    else
      { seen := seen, routes := routes, confirmed := confirmed
        acts := [.enqFront ⟨it.time, .toSend, d⟩] }
  | .deliveryConfirm =>
    if d.original_target_mac = self then
      { seen := seen, routes := routes
        confirmed := pushEvict cfg.queue_size d.confirm_id confirmed
        acts := [] }
    else
      { seen := seen, routes := routes, confirmed := confirmed
        acts := [.enqFront ⟨it.time, .toSend, d⟩] }
  | .searchRequest =>
    let routes2 :=
      pushEvict cfg.route_vector_size
        ⟨d.original_sender_mac, d.sender_mac⟩
        (routeScanDelete d.original_target_mac routes)
    if d.original_target_mac = self then
      { seen := seen, routes := routes2, confirmed := confirmed
        acts := [.enqFront ⟨it.time, .toSend, mkSearchResponse self d rnd⟩] }
    else
      { seen := seen, routes := routes2, confirmed := confirmed
        acts := [.enqFront ⟨it.time, .toSend, d⟩] }
  | .searchResponse =>
    let routes2 :=
      pushEvict cfg.route_vector_size
        ⟨d.original_sender_mac, d.sender_mac⟩
        (routeScanDelete d.original_target_mac routes)
    if d.original_target_mac ≠ self then
      { seen := seen, routes := routes2, confirmed := confirmed
        acts := [.enqFront ⟨it.time, .toSend, d⟩] }
    else
      { seen := seen, routes := routes2, confirmed := confirmed, acts := [] }

/-- The `WAIT_ROUTE` case of `_processing` (lines 791-858). -/
def handleWaitRoute (cfg : InitConfig) (self : Mac) (seen : List Nat)
    (routes : List RoutingEntry) (confirmed : List Nat) (it : WorkItem)
    (now : Nat) : StepOut :=
  let d := it.data
  match lookupRoute d.original_target_mac routes with
  | some _ =>
    { seen := seen, routes := routes, confirmed := confirmed
      acts := [.enqBack ⟨it.time, .toSend, d⟩] }
  | none =>
    if now - it.time > cfg.max_waiting_time then
      if d.original_sender_mac = self then
        { seen := seen, routes := routes, confirmed := confirmed
          acts := [.emitOnSend d.original_target_mac .fail] }
      else
        { seen := seen, routes := routes, confirmed := confirmed, acts := [] }
    else
      { seen := seen, routes := routes, confirmed := confirmed
        acts := [.enqBack it] }

/-- The `WAIT_RESPONSE` case of `_processing` (lines 730-790). -/
def handleWaitResponse (cfg : InitConfig) (self : Mac) (seen : List Nat)
    (routes : List RoutingEntry) (confirmed : List Nat) (it : WorkItem)
    (now : Nat) : StepOut :=
  let d := it.data
  match removeFirstConfirm d.message_id confirmed with
  | some confirmed2 =>
    { seen := seen, routes := routes, confirmed := confirmed2
      acts := [.emitOnSend d.original_target_mac .success] }
  | none =>
    if now - it.time > cfg.max_waiting_time then
      if d.original_sender_mac = self then
        { seen := seen, routes := routes, confirmed := confirmed
          acts := [.emitOnSend d.original_target_mac .fail] }
      else
        { seen := seen, routes := routes, confirmed := confirmed, acts := [] }
    else
      { seen := seen, routes := routes, confirmed := confirmed
        acts := [.enqBack it] }

/-- One iteration of the `_processing` worker loop on a dequeued item:
the four-way dispatch on `queue.id` (line 313). -/
def processItem (cfg : InitConfig) (self : Mac) (seen : List Nat)
    (routes : List RoutingEntry) (confirmed : List Nat) (it : WorkItem)
    (now : Nat) (linkOk : Bool) (rnd : Nat) : StepOut :=
  match it.id with
  | .toSend => handleToSend cfg self seen routes confirmed it now linkOk rnd
  | .onRecv => handleOnRecv cfg self seen routes confirmed it rnd
  | .waitRoute => handleWaitRoute cfg self seen routes confirmed it now
  | .waitResponse => handleWaitResponse cfg self seen routes confirmed it now

/-- Apply the queue insertions of a transcript, in order, to the work queue
(`xQueueSend` appends at the back, `xQueueSendToFront` conses). -/
def applyActs : List WorkItem → List Act → List WorkItem
  | q, [] => q
  | q, .enqBack it :: rest => applyActs (q ++ [it]) rest
  | q, .enqFront it :: rest => applyActs (it :: q) rest
  | q, .emitOnRecv _ _ _ :: rest => applyActs q rest
  | q, .emitOnSend _ _ :: rest => applyActs q rest
  | q, .linkSend _ _ :: rest => applyActs q rest

/-- One turn of the worker task: dequeue the front item (blocking
`xQueueReceive`) and run the dispatch on it; returns the new state and the
transcript of the invocation.  An empty queue leaves the state unchanged
(the worker merely blocks). -/
def stepWorker (cfg : InitConfig) (self : Mac) (n : Node) (now : Nat)
    (linkOk : Bool) (rnd : Nat) : Node × List Act :=
  match n.queue with
  | [] => (n, [])
  | it :: rest =>
    let o := processItem cfg self n.seen n.routes n.confirmed it now linkOk rnd
    (⟨o.seen, o.routes, o.confirmed, applyActs rest o.acts⟩, o.acts)

/-- The receive callback `_recv_cb` (lines 242-305): drop when fewer than
`queue_size - 2` queue slots are free, when the wire length is wrong, when
the network id mismatches, or when the `message_id` was already seen;
otherwise record the id (with eviction), stamp `sender_mac` from the link
source address and front-insert an `ON_RECV` item. -/
def recvCb (cfg : InitConfig) (n : Node) (src : Mac) (wire : FrameData)
    (lenOk : Bool) : Node :=
  if cfg.queue_size - n.queue.length < cfg.queue_size - 2 then n
  else if lenOk = false then n
  else if wire.network_id ≠ cfg.network_id then n
  else if wire.message_id ∈ n.seen then n
  else
    { n with
      seen := pushEvict cfg.id_vector_size wire.message_id n.seen
      queue := ⟨0, .onRecv, { wire with sender_mac := src }⟩ :: n.queue }

/-- Return codes of `zh_network_send` (`esp_err_t`). -/
inductive EspErr where
  | ok
  | espFail
  | invalidArg
  | invalidState
deriving DecidableEq

/-- Common part of the frame built by `zh_network_send` before the target
dispatch (lines 189-193 and 212-213): the payload copy is
`memcpy(payload, data, data_len)`. -/
def sendFrameBase (cfg : InitConfig) (self : Mac) (dataOpt : Option (List Nat))
    (data_len : Nat) (rnd : Nat) : FrameData :=
  { message_type := .broadcast
    network_id := cfg.network_id
    message_id := absU32 rnd
    confirm_id := 0
    original_target_mac := broadcastMac
    original_sender_mac := self
    sender_mac := 0
    payload := (dataOpt.getD []).take data_len
    payload_len := data_len }

/-- The frame built by `zh_network_send` (lines 189-213): a `NULL` target or
the broadcast address yields a broadcast frame to `FF:FF:FF:FF:FF:FF`,
anything else a unicast to the given target. -/
def sendFrame (cfg : InitConfig) (self : Mac) (target : Option Mac)
    (dataOpt : Option (List Nat)) (data_len : Nat) (rnd : Nat) : FrameData :=
  match target with
  | none => sendFrameBase cfg self dataOpt data_len rnd
  | some t =>
    if t ≠ broadcastMac then
      { sendFrameBase cfg self dataOpt data_len rnd with
        message_type := .unicast, original_target_mac := t }
    else sendFrameBase cfg self dataOpt data_len rnd

/-- The host send API `zh_network_send` (lines 164-228).  `dataOpt` is the
data pointer (`none` for `NULL`); `data_len` is the `uint8_t` length;
`qok` is the outcome of the bounded-wait `xQueueSend`. -/
def zh_network_send (cfg : InitConfig) (self : Mac) (isInit : Bool) (n : Node)
    (target : Option Mac) (dataOpt : Option (List Nat)) (data_len : Nat)
    (rnd : Nat) (qok : Bool) : EspErr × Node :=
  if isInit = false then (.espFail, n)
  else if data_len = 0 ∨ dataOpt = none ∨ data_len > maxMessageSize then
    (.invalidArg, n)
  else if cfg.queue_size - n.queue.length < cfg.queue_size / 2 then
    (.invalidState, n)
  else if qok then
    (.ok, { n with queue :=
      n.queue ++ [⟨0, .toSend, sendFrame cfg self target dataOpt data_len rnd⟩] })
  else (.espFail, n)

/-- Reachability of an engine state from the post-init state under the three
entry points of the module: a worker turn, a receive-callback delivery and a
host `zh_network_send` call, with arbitrary oracle inputs. -/
inductive Reachable (cfg : InitConfig) (self : Mac) : Node → Prop where
  | init : Reachable cfg self initialNode
  | worker (n : Node) (now : Nat) (linkOk : Bool) (rnd : Nat) :
      Reachable cfg self n →
      Reachable cfg self (stepWorker cfg self n now linkOk rnd).1
  | recv (n : Node) (src : Mac) (wire : FrameData) (lenOk : Bool) :
      Reachable cfg self n →
      Reachable cfg self (recvCb cfg n src wire lenOk)
  | sendApi (n : Node) (target : Option Mac) (dataOpt : Option (List Nat))
      (len rnd : Nat) (qok : Bool) :
      Reachable cfg self n →
      Reachable cfg self
        (zh_network_send cfg self true n target dataOpt len rnd qok).2

/-- The size bounds of the three recency tables (spec §8, property 3). -/
abbrev tablesBounded (cfg : InitConfig) (n : Node) : Prop :=
  n.seen.length ≤ cfg.id_vector_size ∧
  n.routes.length ≤ cfg.route_vector_size ∧
  n.confirmed.length ≤ cfg.queue_size

/-- At most one routing entry per destination (spec §3 invariant). -/
abbrev uniqueDest (v : List RoutingEntry) : Prop :=
  (v.map (fun e => e.original_target_mac)).Nodup

/-! Concrete data used by the counterexamples, the boundary witnesses and the
table-overflow scenario.  `cfgD` is `ZH_NETWORK_INIT_CONFIG_DEFAULT()`. -/

/-- Default configuration from `zh_network.h`. -/
def cfgD : InitConfig :=
  { network_id := 0xFAFBFCFD
    queue_size := 32
    max_waiting_time := 1000
    id_vector_size := 100
    route_vector_size := 100 }

/-- This node's address in the concrete scenarios. -/
def selfD : Mac := 0xAA0000000002

/-- Address of node A, the originator of the search requests below. -/
def macA : Mac := 0xAA0000000001

/-- First previous-hop address. -/
def macX : Mac := 0xAA0000000011

/-- Second previous-hop address. -/
def macY : Mac := 0xAA0000000012

/-- First searched-for destination. -/
def macT1 : Mac := 0xAA0000000021

/-- Second searched-for destination. -/
def macT2 : Mac := 0xAA0000000022

/-- A wire `SEARCH_REQUEST` from A looking for T1. -/
def frame1 : FrameData :=
  { message_type := .searchRequest
    network_id := 0xFAFBFCFD
    message_id := 101
    confirm_id := 0
    original_target_mac := macT1
    original_sender_mac := macA
    sender_mac := 0
    payload := []
    payload_len := 0 }

/-- A wire `SEARCH_REQUEST` from A looking for T2. -/
def frame2 : FrameData :=
  { frame1 with message_id := 102, original_target_mac := macT2 }

/-- Deliver `frame1` (previous hop X) to the fresh node. -/
def nC1a : Node := recvCb cfgD initialNode macX frame1 true

/-- Process the admitted `SEARCH_REQUEST`: learns the route `(A, X)`. -/
def nC1b : Node := (stepWorker cfgD selfD nC1a 0 true 0).1

/-- Deliver `frame2` (previous hop Y). -/
def nC1c : Node := recvCb cfgD nC1b macY frame2 true

/-- Process the second `SEARCH_REQUEST`: the removal pass is keyed by the
frame's `original_target_mac` (T2), so the prior entry `(A, X)` survives and
`(A, Y)` is appended — two routing entries for destination A. -/
def nC1d : Node := (stepWorker cfgD selfD nC1c 0 true 0).1

/-- Host call queueing a unicast from this node to A. -/
def nC2a : Node :=
  (zh_network_send cfgD selfD true nC1d (some macA) (some [7]) 1 5 true).2

/-- Forward the queued search request of `frame2` (link success). -/
def nC2b : Node := (stepWorker cfgD selfD nC2a 0 true 0).1

/-- Forward the queued search request of `frame1` (link success). -/
def nC2c : Node := (stepWorker cfgD selfD nC2b 0 true 0).1

/-- The unicast to A is at the front; the link send fails, so the failure
branch runs the route-invalidation pass over `[(A, X), (A, Y)]`: it deletes
index 0 and then skips the shifted entry, leaving `(A, Y)` in place. -/
def nC2d : Node := (stepWorker cfgD selfD nC2c 0 false 0).1

/-- Configuration with `id_vector_size = 3` for the overflow scenario. -/
def cfg3 : InitConfig := { cfgD with id_vector_size := 3 }

/-- A wire broadcast frame from A carrying one byte, with the given id. -/
def bFrame (mid : Nat) : FrameData :=
  { message_type := .broadcast
    network_id := 0xFAFBFCFD
    message_id := mid
    confirm_id := 0
    original_target_mac := broadcastMac
    original_sender_mac := macA
    sender_mac := 0
    payload := [9]
    payload_len := 1 }

/-- Scenario driver: deliver one broadcast frame to the node and let the
worker drain the two induced items (host delivery, then the re-flood). -/
def deliverAndDrain (b : FrameData) (n : Node) : Node :=
  (stepWorker cfg3 selfD
    ((stepWorker cfg3 selfD (recvCb cfg3 n macX b true) 0 true 0).1)
    0 true 0).1

/-- State after delivering broadcasts with ids 1, 2, 3, 4 under
`id_vector_size = 3`: id 1 has been evicted from `seen_ids`. -/
def nOverflow : Node :=
  deliverAndDrain (bFrame 4)
    (deliverAndDrain (bFrame 3)
      (deliverAndDrain (bFrame 2)
        (deliverAndDrain (bFrame 1) initialNode)))

/-- Replay of id 1 after its eviction: admitted again. -/
def nReplay : Node := recvCb cfg3 nOverflow macX (bFrame 1) true

/-- A busy node whose queue leaves fewer than `queue_size / 2` free slots
(17 queued items against capacity 32). -/
def nBusy : Node :=
  ⟨[], [], [], List.replicate 17 ⟨0, .toSend, bFrame 1⟩⟩

/-- Work item used by the C1 witness: the admitted `frame1` as dequeued. -/
def itW1 : WorkItem := ⟨0, .onRecv, { frame1 with sender_mac := macX }⟩

/-- Work item used by the C2 witness: a unicast from this node to A. -/
def itW2 : WorkItem :=
  ⟨0, .toSend,
    { message_type := .unicast
      network_id := 0xFAFBFCFD
      message_id := 77
      confirm_id := 0
      original_target_mac := macA
      original_sender_mac := selfD
      sender_mac := 0
      payload := [7]
      payload_len := 1 }⟩

/-- Work item used by the C3 witness: a unicast of this node awaiting its
delivery confirmation. -/
def itW3 : WorkItem := ⟨0, .waitResponse, itW2.data⟩

/-- Work item used by the C9 witness: a received broadcast. -/
def itW9 : WorkItem := ⟨0, .onRecv, { bFrame 1 with sender_mac := macX }⟩

/-! Helper lemmas about the table operations. -/

/-- A freshly pushed id survives the eviction step whenever the bound is
positive (eviction removes the oldest entry, which is at the front). -/
theorem mem_pushEvict_self {α : Type} (bound : Nat) (x : α) (v : List α)
    (hb : 1 ≤ bound) : x ∈ pushEvict bound x v := by
  unfold pushEvict
  split
  next h =>
    cases v with
    | nil => simp at h; exact absurd hb (by omega)
    | cons a as => simp
  next h => simp

/-- `pushEvict` preserves the size bound. -/
theorem pushEvict_length_le {α : Type} (bound : Nat) (x : α) (v : List α)
    (h : v.length ≤ bound) : (pushEvict bound x v).length ≤ bound := by
  unfold pushEvict
  split
  next h2 =>
    rw [List.length_tail]
    simp only [List.length_append, List.length_cons, List.length_nil] at h2 ⊢
    omega
  next h2 =>
    simp only [List.length_append, List.length_cons, List.length_nil] at h2 ⊢
    omega

/-- The single-pass deletion yields a sublist of the input. -/
theorem routeScanDelete_sublist (k : Mac) :
    ∀ v : List RoutingEntry, List.Sublist (routeScanDelete k v) v
  | [] => List.Sublist.slnil
  | [e] => by
    by_cases hk : e.original_target_mac = k
    · simp only [routeScanDelete, if_pos hk]
      exact List.nil_sublist [e]
    · simp only [routeScanDelete, if_neg hk]
      exact List.Sublist.refl [e]
  | e :: f :: rest2 => by
    by_cases hk : e.original_target_mac = k
    · simp only [routeScanDelete, if_pos hk]
      exact ((routeScanDelete_sublist k rest2).cons₂ f).cons e
    · simp only [routeScanDelete, if_neg hk]
      exact (routeScanDelete_sublist k (f :: rest2)).cons₂ e

/-- The single-pass deletion never grows the table. -/
theorem routeScanDelete_length_le (k : Mac) (v : List RoutingEntry) :
    (routeScanDelete k v).length ≤ v.length :=
  (routeScanDelete_sublist k v).length_le

/-- When the table has at most one entry per destination, the single-pass
deletion removes every entry keyed `k` (the skipped element cannot be a
second match). -/
theorem routeScanDelete_dest_ne (k : Mac) :
    ∀ v : List RoutingEntry, uniqueDest v →
      ∀ e ∈ routeScanDelete k v, e.original_target_mac ≠ k
  | [], _, e, he => by simp [routeScanDelete] at he
  | [a], _, e, he => by
    by_cases hk : a.original_target_mac = k
    · simp [routeScanDelete, hk] at he
    · simp only [routeScanDelete, if_neg hk, List.mem_singleton] at he
      rw [he]; exact hk
  | a :: f :: rest2, h, e, he => by
    have hh := List.nodup_cons.mp h
    by_cases hk : a.original_target_mac = k
    · have hmem : e ∈ f :: rest2 := by
        simp only [routeScanDelete, if_pos hk] at he
        rcases List.mem_cons.mp he with he | he
        · simp [he]
        · exact List.mem_cons_of_mem f
            ((routeScanDelete_sublist k rest2).subset he)
      intro hek
      apply hh.1
      show a.original_target_mac ∈
        List.map (fun e => e.original_target_mac) (f :: rest2)
      rw [hk, ← hek]
      exact List.mem_map_of_mem (fun e => e.original_target_mac) hmem
    · simp only [routeScanDelete, if_neg hk] at he
      rcases List.mem_cons.mp he with he | he
      · rw [he]; exact hk
      · exact routeScanDelete_dest_ne k (f :: rest2) hh.2 e he

/-- The confirmation scan fails exactly when the id is absent. -/
theorem removeFirstConfirm_none_iff (x : Nat) :
    ∀ l : List Nat, removeFirstConfirm x l = none ↔ x ∉ l
  | [] => by rw [show removeFirstConfirm x [] = none from rfl]; simp
  | y :: ys => by
    by_cases h : y = x
    · simp [removeFirstConfirm, h]
    · have hxy : x ≠ y := fun hx => h hx.symm
      simp [removeFirstConfirm, h, Option.map_eq_none,
        removeFirstConfirm_none_iff x ys, hxy]

/-- A successful confirmation scan removes exactly one entry. -/
theorem removeFirstConfirm_some_length (x : Nat) :
    ∀ l l2 : List Nat, removeFirstConfirm x l = some l2 →
      l2.length + 1 = l.length
  | [], _, h => by simp [removeFirstConfirm] at h
  | y :: ys, l2, h => by
    by_cases hy : y = x
    · rw [removeFirstConfirm, if_pos hy] at h
      injection h with h
      simp [← h]
    · rw [removeFirstConfirm, if_neg hy] at h
      cases hz : removeFirstConfirm x ys with
      | none => rw [hz] at h; simp at h
      | some zs =>
        rw [hz] at h
        simp only [Option.map] at h
        injection h with h
        have ih := removeFirstConfirm_some_length x ys zs hz
        rw [← h]
        simp only [List.length_cons]
        omega

/-- Every branch of the worker dispatch keeps the three tables within their
bounds: seen ids are only written through `pushEvict` with bound
`id_vector_size`, routes through `routeScanDelete` and `pushEvict` with
bound `route_vector_size`, confirmations through `pushEvict` with bound
`queue_size` and the shrinking confirmation scan. -/
theorem processItem_bounds (cfg : InitConfig) (self : Mac) (seen : List Nat)
    (routes : List RoutingEntry) (confirmed : List Nat) (it : WorkItem)
    (now : Nat) (linkOk : Bool) (rnd : Nat)
    (h1 : seen.length ≤ cfg.id_vector_size)
    (h2 : routes.length ≤ cfg.route_vector_size)
    (h3 : confirmed.length ≤ cfg.queue_size) :
    (processItem cfg self seen routes confirmed it now linkOk rnd).seen.length ≤
        cfg.id_vector_size ∧
    (processItem cfg self seen routes confirmed it now linkOk rnd).routes.length ≤
        cfg.route_vector_size ∧
    (processItem cfg self seen routes confirmed it now linkOk rnd).confirmed.length ≤
        cfg.queue_size := by
  have hrfc : ∀ l2, removeFirstConfirm it.data.message_id confirmed = some l2 →
      l2.length ≤ cfg.queue_size := by
    intro l2 hl2
    have := removeFirstConfirm_some_length it.data.message_id confirmed l2 hl2
    omega
  simp only [processItem, handleToSend, sendPhase, handleOnRecv,
    handleWaitRoute, handleWaitResponse]
  repeat' split
  all_goals refine ⟨?_, ?_, ?_⟩
  all_goals
    first
      | exact h1
      | exact h2
      | exact h3
      | exact pushEvict_length_le _ _ _ h1
      | exact pushEvict_length_le _ _ _ h3
      | exact le_trans (routeScanDelete_length_le _ _) h2
      | exact pushEvict_length_le _ _ _
          (le_trans (routeScanDelete_length_le _ _) h2)
      | exact hrfc _ (by assumption)

/-- A worker turn preserves the table bounds. -/
theorem stepWorker_bounded (cfg : InitConfig) (self : Mac) (n : Node)
    (now : Nat) (linkOk : Bool) (rnd : Nat) (h : tablesBounded cfg n) :
    tablesBounded cfg (stepWorker cfg self n now linkOk rnd).1 := by
  obtain ⟨h1, h2, h3⟩ := h
  unfold stepWorker
  split
  next => exact ⟨h1, h2, h3⟩
  next it rest _ =>
    exact processItem_bounds cfg self n.seen n.routes n.confirmed it now
      linkOk rnd h1 h2 h3

/-- A receive-callback delivery preserves the table bounds. -/
theorem recvCb_bounded (cfg : InitConfig) (n : Node) (src : Mac)
    (wire : FrameData) (lenOk : Bool) (h : tablesBounded cfg n) :
    tablesBounded cfg (recvCb cfg n src wire lenOk) := by
  obtain ⟨h1, h2, h3⟩ := h
  unfold recvCb
  repeat' split
  all_goals
    first
      | exact ⟨h1, h2, h3⟩
      | exact ⟨pushEvict_length_le _ _ _ h1, h2, h3⟩

/-- A host `zh_network_send` call preserves the table bounds (it only
touches the work queue). -/
theorem send_bounded (cfg : InitConfig) (self : Mac) (n : Node)
    (target : Option Mac) (dataOpt : Option (List Nat)) (len rnd : Nat)
    (qok : Bool) (h : tablesBounded cfg n) :
    tablesBounded cfg
      (zh_network_send cfg self true n target dataOpt len rnd qok).2 := by
  obtain ⟨h1, h2, h3⟩ := h
  unfold zh_network_send
  repeat' split
  all_goals exact ⟨h1, h2, h3⟩

/-- Every reachable state keeps the three tables within their bounds. -/
theorem reachable_bounded (cfg : InitConfig) (self : Mac) (n : Node)
    (h : Reachable cfg self n) : tablesBounded cfg n := by
  induction h with
  | init => exact ⟨Nat.zero_le _, Nat.zero_le _, Nat.zero_le _⟩
  | worker m now linkOk rnd _ ih =>
    exact stepWorker_bounded cfg self m now linkOk rnd ih
  | recv m src wire lenOk _ ih =>
    exact recvCb_bounded cfg m src wire lenOk ih
  | sendApi m target dataOpt len rnd qok _ ih =>
    exact send_bounded cfg self m target dataOpt len rnd qok ih

/-- The duplicate-route state of the C1 counterexample is reachable. -/
theorem reachable_nC1d : Reachable cfgD selfD nC1d :=
  Reachable.worker nC1c 0 true 0
    (Reachable.recv nC1b macY frame2 true
      (Reachable.worker nC1a 0 true 0
        (Reachable.recv initialNode macX frame1 true Reachable.init)))

/-- The pre-failure state of the C2 counterexample is reachable. -/
theorem reachable_nC2c : Reachable cfgD selfD nC2c :=
  Reachable.worker nC2b 0 true 0
    (Reachable.worker nC2a 0 true 0
      (Reachable.sendApi nC1d (some macA) (some [7]) 1 5 true reachable_nC1d))

/-- C1 (amended): handling a `SEARCH_REQUEST` or `SEARCH_RESPONSE` rewrites
the routing table by one forward removal pass keyed by the frame's
`original_target_mac` followed by appending the learned entry
`(original_sender_mac, sender_mac)` with oldest-first eviction.  The removal
key differs from the inserted destination, so at most one entry per
destination is not an invariant of the table (see the counterexample). -/
theorem spec_c1 (cfg : InitConfig) (self : Mac) (seen : List Nat)
    (routes : List RoutingEntry) (confirmed : List Nat) (it : WorkItem)
    (now : Nat) (linkOk : Bool) (rnd : Nat)
    (hid : it.id = .onRecv)
    (hty : it.data.message_type = .searchRequest ∨
      it.data.message_type = .searchResponse) :
    (processItem cfg self seen routes confirmed it now linkOk rnd).routes =
      pushEvict cfg.route_vector_size
        ⟨it.data.original_sender_mac, it.data.sender_mac⟩
        (routeScanDelete it.data.original_target_mac routes) := by
  rcases hty with hty | hty <;>
    simp only [processItem, hid, handleOnRecv, hty] <;> split <;> rfl

/-- C1 witness: the route update of a concrete admitted `SEARCH_REQUEST`. -/
theorem spec_c1_witness :
    (processItem cfgD selfD [] [] [] itW1 0 true 0).routes =
      pushEvict cfgD.route_vector_size
        ⟨itW1.data.original_sender_mac, itW1.data.sender_mac⟩
        (routeScanDelete itW1.data.original_target_mac []) :=
  spec_c1 cfgD selfD [] [] [] itW1 0 true 0 (by decide) (Or.inl (by decide))

/-- C1 counterexample: a reachable state in which handling a second
`SEARCH_REQUEST` from A (searching for a different destination) leaves two
routing entries for destination A, refuting the at-most-one-entry-per-
destination claim: the insert-time removal is keyed by the frame's
`original_target_mac`, not by the destination being inserted. -/
theorem spec_c1_counterexample :
    Reachable cfgD selfD nC1d ∧
    nC1d.routes = [⟨macA, macX⟩, ⟨macA, macY⟩] ∧
    ¬ uniqueDest nC1d.routes :=
  ⟨reachable_nC1d, by decide, by decide⟩

/-- C2 (amended): on a final link failure of a `TO_SEND` item with a
non-broadcast target, the route invalidation is one forward pass that skips
the entry immediately after each deletion (so of two adjacent entries for
the destination the second survives); afterwards the item is re-queued at
the back as `WAIT_ROUTE` and a fresh `SEARCH_REQUEST` is front-inserted.
When the table holds at most one entry per destination, every entry for the
failed destination is removed.  A broadcast frame that fails is dropped
silently: no route change, no re-queue, no host event. -/
theorem spec_c2 (cfg : InitConfig) (self : Mac) (seen : List Nat)
    (routes : List RoutingEntry) (confirmed : List Nat) (it : WorkItem)
    (now : Nat) (rnd : Nat) (hop : Mac)
    (hid : it.id = .toSend)
    (hty : it.data.message_type = .unicast ∨
      it.data.message_type = .deliveryConfirm)
    (hroute : lookupRoute it.data.original_target_mac routes = some hop)
    (hnb : it.data.original_target_mac ≠ broadcastMac) :
    (processItem cfg self seen routes confirmed it now false rnd).routes =
      routeScanDelete it.data.original_target_mac routes ∧
    (processItem cfg self seen routes confirmed it now false rnd).acts =
      [.linkSend hop it.data,
       .enqBack ⟨now, .waitRoute, it.data⟩,
       .enqFront ⟨now, .toSend, mkSearchRequest self it.data rnd⟩] ∧
    (uniqueDest routes →
      ∀ e ∈ (processItem cfg self seen routes confirmed it now false rnd).routes,
        e.original_target_mac ≠ it.data.original_target_mac) ∧
    (∀ it2 : WorkItem, it2.id = .toSend →
      it2.data.message_type = .broadcast →
      it2.data.original_target_mac = broadcastMac →
      (processItem cfg self seen routes confirmed it2 now false rnd).routes =
          routes ∧
      (processItem cfg self seen routes confirmed it2 now false rnd).acts =
        [.linkSend broadcastMac it2.data]) := by
  have hcond : ¬ (it.data.message_type = .broadcast ∨
      it.data.message_type = .searchRequest ∨
      it.data.message_type = .searchResponse) := by
    rcases hty with h | h <;> simp [h]
  have hmain : processItem cfg self seen routes confirmed it now false rnd =
      { seen := seen
        routes := routeScanDelete it.data.original_target_mac routes
        confirmed := confirmed
        acts := [.linkSend hop it.data,
                 .enqBack ⟨now, .waitRoute, it.data⟩,
                 .enqFront ⟨now, .toSend, mkSearchRequest self it.data rnd⟩] } := by
    simp only [processItem, hid, handleToSend, if_neg hcond, hroute, sendPhase,
      Bool.false_eq_true, if_false, if_pos hnb]
  refine ⟨by rw [hmain], by rw [hmain], ?_, ?_⟩
  · intro hu e he
    rw [hmain] at he
    exact routeScanDelete_dest_ne _ routes hu e he
  · intro it2 hid2 hty2 hb2
    have hcondT : it2.data.message_type = MessageType.broadcast ∨
        it2.data.message_type = MessageType.searchRequest ∨
        it2.data.message_type = MessageType.searchResponse := Or.inl hty2
    refine ⟨?_, ?_⟩ <;>
      · simp only [processItem, hid2, handleToSend, if_pos hcondT, sendPhase,
          Bool.false_eq_true, if_false]
        rw [if_neg (by simp [hb2])]

/-- C2 witness: a unicast to A with the cached route `(A, X)` fails at the
link; the route entry for A is removed and the rediscovery is queued. -/
theorem spec_c2_witness :
    (processItem cfgD selfD [] [⟨macA, macX⟩] [] itW2 3 false 7).routes =
      routeScanDelete itW2.data.original_target_mac [⟨macA, macX⟩] ∧
    (processItem cfgD selfD [] [⟨macA, macX⟩] [] itW2 3 false 7).acts =
      [.linkSend macX itW2.data,
       .enqBack ⟨3, .waitRoute, itW2.data⟩,
       .enqFront ⟨3, .toSend, mkSearchRequest selfD itW2.data 7⟩] :=
  ⟨(spec_c2 cfgD selfD [] [⟨macA, macX⟩] [] itW2 3 7 macX (by decide)
      (Or.inl (by decide)) (by decide) (by decide)).1,
   (spec_c2 cfgD selfD [] [⟨macA, macX⟩] [] itW2 3 7 macX (by decide)
      (Or.inl (by decide)) (by decide) (by decide)).2.1⟩

/-- C2 counterexample: in the reachable state `nC2c` the queue head is a
unicast to A (not broadcast) and the routing table holds two adjacent
entries for A; after the failed link send, the invalidation pass leaves the
entry `(A, Y)` behind, refuting that every entry for the destination is
removed. -/
theorem spec_c2_counterexample :
    Reachable cfgD selfD nC2c ∧
    (nC2c.queue.head?.map fun it =>
      (it.id, it.data.message_type, it.data.original_target_mac)) =
      some (.toSend, .unicast, macA) ∧
    nC2c.routes = [⟨macA, macX⟩, ⟨macA, macY⟩] ∧
    macA ≠ broadcastMac ∧
    nC2d.routes = [⟨macA, macY⟩] :=
  ⟨reachable_nC2c, by decide, by decide, by decide, by decide⟩

/-- C3: a `WAIT_RESPONSE` item either finds its `message_id` among the
received confirmations (the entry is removed, `ON_SEND{SUCCESS}` is emitted
and the item is dropped), or — with no match — times out after
`max_waiting_time` (emitting `ON_SEND{FAIL}` exactly when this node is the
originator, then dropping the item), or is re-enqueued unchanged at the
back; the scan finds a match exactly when the id is present. -/
theorem spec_c3 (cfg : InitConfig) (self : Mac) (seen : List Nat)
    (routes : List RoutingEntry) (confirmed : List Nat) (it : WorkItem)
    (now : Nat) (linkOk : Bool) (rnd : Nat)
    (hid : it.id = .waitResponse) :
    (∀ c2, removeFirstConfirm it.data.message_id confirmed = some c2 →
      processItem cfg self seen routes confirmed it now linkOk rnd =
        ⟨seen, routes, c2,
         [.emitOnSend it.data.original_target_mac .success]⟩) ∧
    (removeFirstConfirm it.data.message_id confirmed = none →
      now - it.time > cfg.max_waiting_time →
      processItem cfg self seen routes confirmed it now linkOk rnd =
        ⟨seen, routes, confirmed,
         if it.data.original_sender_mac = self
         then [.emitOnSend it.data.original_target_mac .fail] else []⟩) ∧
    (removeFirstConfirm it.data.message_id confirmed = none →
      ¬ now - it.time > cfg.max_waiting_time →
      processItem cfg self seen routes confirmed it now linkOk rnd =
        ⟨seen, routes, confirmed, [.enqBack it]⟩) ∧
    (removeFirstConfirm it.data.message_id confirmed = none ↔
      it.data.message_id ∉ confirmed) := by
  refine ⟨?_, ?_, ?_, removeFirstConfirm_none_iff _ _⟩
  · intro c2 hc2
    simp only [processItem, hid, handleWaitResponse, hc2]
  · intro hnone htime
    simp only [processItem, hid, handleWaitResponse, hnone, if_pos htime]
    split <;> rfl
  · intro hnone htime
    simp only [processItem, hid, handleWaitResponse, hnone, if_neg htime]

/-- C3 witness: with an empty confirmation table and an unexpired deadline,
the item is re-enqueued unchanged; the scan reports no match. -/
theorem spec_c3_witness :
    (processItem cfgD selfD [] [] [] itW3 5 true 0 =
      ⟨[], [], [], [.enqBack itW3]⟩) ∧
    (removeFirstConfirm itW3.data.message_id [] = none ↔
      itW3.data.message_id ∉ ([] : List Nat)) :=
  ⟨(spec_c3 cfgD selfD [] [] [] itW3 5 true 0 (by decide)).2.2.1 (by decide)
     (by decide),
   (spec_c3 cfgD selfD [] [] [] itW3 5 true 0 (by decide)).2.2.2⟩

/-- C4: a `TO_SEND` unicast or delivery confirmation with no cached route is
re-queued as `WAIT_ROUTE` with deadline `now`; a `SEARCH_REQUEST` carrying
this node as sender, empty payload, a fresh id and the unchanged target is
front-inserted; no link transmission happens in the invocation. -/
theorem spec_c4 (cfg : InitConfig) (self : Mac) (seen : List Nat)
    (routes : List RoutingEntry) (confirmed : List Nat) (it : WorkItem)
    (now : Nat) (linkOk : Bool) (rnd : Nat)
    (hid : it.id = .toSend)
    (hty : it.data.message_type = .unicast ∨
      it.data.message_type = .deliveryConfirm)
    (hroute : lookupRoute it.data.original_target_mac routes = none) :
    processItem cfg self seen routes confirmed it now linkOk rnd =
      ⟨seen, routes, confirmed,
       [.enqBack ⟨now, .waitRoute, it.data⟩,
        .enqFront ⟨now, .toSend, mkSearchRequest self it.data rnd⟩]⟩ ∧
    (mkSearchRequest self it.data rnd).message_type = .searchRequest ∧
    (mkSearchRequest self it.data rnd).original_sender_mac = self ∧
    (mkSearchRequest self it.data rnd).payload_len = 0 ∧
    (mkSearchRequest self it.data rnd).message_id = absU32 rnd ∧
    (mkSearchRequest self it.data rnd).original_target_mac =
      it.data.original_target_mac ∧
    (∀ peer f, Act.linkSend peer f ∉
      (processItem cfg self seen routes confirmed it now linkOk rnd).acts) := by
  have hcond : ¬ (it.data.message_type = .broadcast ∨
      it.data.message_type = .searchRequest ∨
      it.data.message_type = .searchResponse) := by
    rcases hty with h | h <;> simp [h]
  have hmain : processItem cfg self seen routes confirmed it now linkOk rnd =
      ⟨seen, routes, confirmed,
       [.enqBack ⟨now, .waitRoute, it.data⟩,
        .enqFront ⟨now, .toSend, mkSearchRequest self it.data rnd⟩]⟩ := by
    simp only [processItem, hid, handleToSend, if_neg hcond, hroute]
  refine ⟨hmain, rfl, rfl, rfl, rfl, rfl, ?_⟩
  intro peer f
  rw [hmain]
  simp

/-- C4 witness: the no-route branch on a concrete unicast to A. -/
theorem spec_c4_witness :
    processItem cfgD selfD [] [] [] itW2 4 true 9 =
      ⟨[], [], [],
       [.enqBack ⟨4, .waitRoute, itW2.data⟩,
        .enqFront ⟨4, .toSend, mkSearchRequest selfD itW2.data 9⟩]⟩ ∧
    Act.linkSend macX itW2.data ∉
      (processItem cfgD selfD [] [] [] itW2 4 true 9).acts :=
  ⟨(spec_c4 cfgD selfD [] [] [] itW2 4 true 9 (by decide) (Or.inl (by decide))
      (by decide)).1,
   (spec_c4 cfgD selfD [] [] [] itW2 4 true 9 (by decide) (Or.inl (by decide))
      (by decide)).2.2.2.2.2.2 macX itW2.data⟩

/-- C5: a well-formed frame (correct length and network id, unseen id,
enough queue space) is admitted once — the `ON_RECV` item is front-inserted
and the id recorded — and a second delivery of the same frame is dropped at
admission leaving the state exactly unchanged. -/
theorem spec_c5 (cfg : InitConfig) (n : Node) (src : Mac) (wire : FrameData)
    (hb : 1 ≤ cfg.id_vector_size)
    (hnet : wire.network_id = cfg.network_id)
    (hnew : wire.message_id ∉ n.seen)
    (hs1 : ¬ cfg.queue_size - n.queue.length < cfg.queue_size - 2)
    (hs2 : ¬ cfg.queue_size - (n.queue.length + 1) < cfg.queue_size - 2) :
    (recvCb cfg n src wire true).queue =
      ⟨0, .onRecv, { wire with sender_mac := src }⟩ :: n.queue ∧
    (recvCb cfg n src wire true).seen =
      pushEvict cfg.id_vector_size wire.message_id n.seen ∧
    recvCb cfg (recvCb cfg n src wire true) src wire true =
      recvCb cfg n src wire true := by
  have hfirst : recvCb cfg n src wire true =
      { n with
        seen := pushEvict cfg.id_vector_size wire.message_id n.seen
        queue := ⟨0, .onRecv, { wire with sender_mac := src }⟩ :: n.queue } := by
    unfold recvCb
    rw [if_neg hs1, if_neg (by simp), if_neg (by simp [hnet]), if_neg hnew]
  have hsecond : ∀ m : Node, wire.message_id ∈ m.seen →
      ¬ cfg.queue_size - m.queue.length < cfg.queue_size - 2 →
      recvCb cfg m src wire true = m := by
    intro m hm hsp
    unfold recvCb
    rw [if_neg hsp, if_neg (by simp), if_neg (by simp [hnet]), if_pos hm]
  refine ⟨by rw [hfirst], by rw [hfirst], ?_⟩
  rw [hfirst]
  exact hsecond _ (mem_pushEvict_self _ _ _ hb) (by simpa using hs2)

/-- C5 witness: double delivery of `frame1` to the fresh node. -/
theorem spec_c5_witness :
    recvCb cfgD (recvCb cfgD initialNode macX frame1 true) macX frame1 true =
      recvCb cfgD initialNode macX frame1 true :=
  (spec_c5 cfgD initialNode macX frame1 (by decide) (by decide) (by decide)
    (by decide) (by decide)).2.2

/-- C6: on an initialized engine, `zh_network_send` returns
`ESP_ERR_INVALID_ARG` exactly for a zero length, a length above 218 or a
null data pointer; with valid arguments and fewer than `queue_size / 2`
free queue slots it returns `ESP_ERR_INVALID_STATE` leaving the state
untouched. -/
theorem spec_c6 (cfg : InitConfig) (self : Mac) (n : Node)
    (target : Option Mac) (dataOpt : Option (List Nat)) (len rnd : Nat)
    (qok : Bool) :
    ((zh_network_send cfg self true n target dataOpt len rnd qok).1 =
        .invalidArg ↔ (len = 0 ∨ len > 218 ∨ dataOpt = none)) ∧
    (¬ (len = 0 ∨ len > 218 ∨ dataOpt = none) →
      cfg.queue_size - n.queue.length < cfg.queue_size / 2 →
      zh_network_send cfg self true n target dataOpt len rnd qok =
        (.invalidState, n)) := by
  have hcond : (len = 0 ∨ dataOpt = none ∨ len > maxMessageSize) ↔
      (len = 0 ∨ len > 218 ∨ dataOpt = none) := by
    simp only [maxMessageSize]
    tauto
  unfold zh_network_send
  rw [if_neg (by simp)]
  by_cases harg : len = 0 ∨ dataOpt = none ∨ len > maxMessageSize
  · rw [if_pos harg]
    exact ⟨by simp [hcond.mp harg], fun hne _ => absurd (hcond.mp harg) hne⟩
  · rw [if_neg harg]
    have hfd : ¬ (len = 0 ∨ len > 218 ∨ dataOpt = none) :=
      fun h => harg (hcond.mpr h)
    refine ⟨?_, fun _ hq => by rw [if_pos hq]⟩
    simp only [hfd, iff_false]
    split
    · simp
    · split <;> simp

/-- C6 witness: the boundary lengths 0 and 219 are rejected as invalid
arguments, and a nearly full queue rejects a valid request with
`ESP_ERR_INVALID_STATE` without touching the state. -/
theorem spec_c6_witness :
    ((zh_network_send cfgD selfD true initialNode (some macA) (some [1]) 0 0
        true).1 = .invalidArg ↔ (0 = 0 ∨ 0 > 218 ∨ some [1] = none)) ∧
    ((zh_network_send cfgD selfD true initialNode (some macA) (some [1]) 219 0
        true).1 = .invalidArg ↔ (219 = 0 ∨ 219 > 218 ∨ some [1] = none)) ∧
    zh_network_send cfgD selfD true nBusy (some macA) (some [1]) 1 0 true =
      (.invalidState, nBusy) :=
  ⟨(spec_c6 cfgD selfD initialNode (some macA) (some [1]) 0 0 true).1,
   (spec_c6 cfgD selfD initialNode (some macA) (some [1]) 219 0 true).1,
   (spec_c6 cfgD selfD nBusy (some macA) (some [1]) 1 0 true).2 (by decide)
     (by decide)⟩

/-- C7: in every reachable state the three recency tables respect their
bounds (seen ids by `id_vector_size`, routes by `route_vector_size`,
confirmations by `queue_size`), each insertion evicting the oldest entry
when the bound would be exceeded; concretely, with `id_vector_size = 3`,
after broadcasts with ids 1, 2, 3, 4 the table holds `[2, 3, 4]` (id 1
evicted) and a replay of id 1 is admitted again and handed to the host. -/
theorem spec_c7 :
    (∀ (cfg : InitConfig) (self : Mac) (n : Node),
      Reachable cfg self n → tablesBounded cfg n) ∧
    nOverflow.seen = [2, 3, 4] ∧
    nReplay.queue = [⟨0, .onRecv, { bFrame 1 with sender_mac := macX }⟩] ∧
    (stepWorker cfg3 selfD nReplay 0 true 0).2 =
      [.emitOnRecv macA [9] 1,
       .enqBack ⟨0, .toSend, { bFrame 1 with sender_mac := macX }⟩] :=
  ⟨reachable_bounded, by decide, by decide, by decide⟩

/-- C7 witness: the bound invariant instantiated at the initial state. -/
theorem spec_c7_witness : tablesBounded cfgD initialNode :=
  spec_c7.1 cfgD selfD initialNode Reachable.init

/-- C8: evaluation at the failing input.  `message_id` is
`abs(esp_random())`; when the generator draws 0 the stored id is 0, so the
claimed non-zero (positive) identifier is not guaranteed by the code:
`zh_network_send` with `esp_random() = 0` enqueues a frame whose
`message_id` is 0. -/
theorem spec_c8 :
    (zh_network_send cfgD selfD true initialNode (some macA) (some [5]) 1 0
        true).1 = .ok ∧
    ((zh_network_send cfgD selfD true initialNode (some macA) (some [5]) 1 0
        true).2.queue.map fun it => it.data.message_id) = [0] ∧
    absU32 0 = 0 := by
  refine ⟨by decide, by decide, by decide⟩

/-- C9: handling a received broadcast emits the `ON_RECV` host event
(carrying the original sender and the payload) strictly before the same
frame is re-enqueued as `TO_SEND` for re-flooding: the transcript is
exactly the emission followed by the back-insertion. -/
theorem spec_c9 (cfg : InitConfig) (self : Mac) (seen : List Nat)
    (routes : List RoutingEntry) (confirmed : List Nat) (it : WorkItem)
    (now : Nat) (linkOk : Bool) (rnd : Nat)
    (hid : it.id = .onRecv)
    (hty : it.data.message_type = .broadcast) :
    (processItem cfg self seen routes confirmed it now linkOk rnd).acts =
      [.emitOnRecv it.data.original_sender_mac
         (it.data.payload.take it.data.payload_len) it.data.payload_len,
       .enqBack ⟨it.time, .toSend, it.data⟩] := by
  simp only [processItem, hid, handleOnRecv, hty]

/-- C9 witness: the transcript order on a concrete received broadcast. -/
theorem spec_c9_witness :
    (processItem cfgD selfD [] [] [] itW9 0 true 0).acts =
      [.emitOnRecv itW9.data.original_sender_mac
         (itW9.data.payload.take itW9.data.payload_len)
         itW9.data.payload_len,
       .enqBack ⟨itW9.time, .toSend, itW9.data⟩] :=
  spec_c9 cfgD selfD [] [] [] itW9 0 true 0 (by decide) (by decide)

/-- C10: whenever `zh_network_send` does not return `ESP_OK` (not
initialized, invalid argument, queue almost full, or queue-send timeout),
the engine state — work queue and all three tables — is left exactly as it
was. -/
theorem spec_c10 (cfg : InitConfig) (self : Mac) (isInit : Bool) (n : Node)
    (target : Option Mac) (dataOpt : Option (List Nat)) (len rnd : Nat)
    (qok : Bool)
    (h : (zh_network_send cfg self isInit n target dataOpt len rnd qok).1 ≠
      .ok) :
    (zh_network_send cfg self isInit n target dataOpt len rnd qok).2 = n := by
  revert h
  unfold zh_network_send
  split
  next => intro _; rfl
  next =>
    split
    next => intro _; rfl
    next =>
      split
      next => intro _; rfl
      next =>
        split
        next => intro h; exact absurd rfl h
        next => intro _; rfl

/-- C10 witness: a rejected oversize request leaves the state unchanged. -/
theorem spec_c10_witness :
    (zh_network_send cfgD selfD true initialNode (some macA) (some [1]) 219 0
        true).2 = initialNode :=
  spec_c10 cfgD selfD true initialNode (some macA) (some [1]) 219 0 true
    (by decide)

end ZhNetwork
